import Mathlib

/-!
Shallow embedding of `salt/client.py` (`LocalClient`, `FunctionWrapper`).

External observations of the gather loops (clock reads, directory
listings, event-bus pulls, write-tag globs, liveness-probe results) are
supplied as explicit traces; each iteration of a Python `while True`
loop consumes one trace element.  The several `int(time.time())` reads
inside one iteration are modelled as a single instant `now`.
-/

namespace SaltClient

abbrev AgentId := String

/-- A decoded Python value; `none` models Python `None`. -/
abbrev Val := Option Nat

/-- One per-agent reply surfaced to the caller: the mandatory `ret`
payload and the optional `out` formatter hint. -/
structure Reply where
  ret : Val
  out : Option Val
deriving Repr, DecidableEq

/-- A result mapping as yielded or returned by the gatherers; the empty
list models the empty dict `{}`. -/
abbrev RetMap := List (AgentId × Reply)

/-- Python `set.add`. -/
def setAdd (s : List AgentId) (x : AgentId) : List AgentId :=
  if x ∈ s then s else s ++ [x]

/-- Python `set.update`. -/
def setUnion (s : List AgentId) (xs : List AgentId) : List AgentId :=
  xs.foldl setAdd s

/-- Python `set(list(minions))`. -/
def toSet (l : List AgentId) : List AgentId := setUnion [] l

/-- Python `len(a.intersection(b))`. -/
def interCard (a b : List AgentId) : Nat :=
  (a.filter (fun x => decide (x ∈ b))).length

/-- Python `a.difference(b)`, as a list. -/
def setDiff (a b : List AgentId) : List AgentId :=
  a.filter (fun x => decide (x ∉ b))

def insertSorted (x : AgentId) : List AgentId → List AgentId
  | [] => [x]
  | y :: ys => if x ≤ y then x :: y :: ys else y :: insertSorted x ys

/-- Python `sorted(...)` on agent ids. -/
def sortStr (l : List AgentId) : List AgentId := l.foldr insertSorted []

/-- The agent ids surfaced by a sequence of yielded mappings, in yield
order. -/
def yieldIds : List RetMap → List AgentId
  | [] => []
  | y :: ys => y.map Prod.fst ++ yieldIds ys

/-- Python `fn_.startswith('.')`. -/
def startsWithDot (s : String) : Bool :=
  match s.toList with
  | [] => false
  | c :: _ => decide (c = '.')

/-- Python `int(jid) == 0` for the numeric job ids the master hands
back: true exactly when the string consists of zero digits only. -/
def jidIsZero (jid : String) : Bool :=
  !jid.toList.isEmpty && jid.toList.all (fun c => decide (c = '0'))

/-- Python `timeout or self.opts[..]`: both `None` and `0` are falsy. -/
def pyOr (t : Option Nat) (d : Nat) : Nat :=
  match t with
  | none => d
  | some 0 => d
  | some n => n

/-- The exception kind the client raises to its caller on the modelled
publish path (`EauthAuthenticationError`). -/
inductive ClientErr where
  | eauth
deriving Repr, DecidableEq

/-- The publish reply extracted from the master's payload,
`{'jid': .., 'minions': ..}`; `jid = none` models a reply without a
`'jid'` key. -/
structure PubData where
  jid : Option String
  minions : List AgentId
deriving Repr, DecidableEq

/-- Model of `LocalClient.pub` (client.py:805-904), observationally:
the `publish_pull.ipc` socket pre-check, then the synchronous request.
`sreqReply = none` models a falsy (empty) reply from `sreq.send`, which
`pub` returns unchanged (`if not payload: return payload`); otherwise
`pub` returns the jid and minion list extracted from the payload.
Target-kind rewrites and payload construction do not alter this result
shape. -/
def pub (socketExists : Bool) (sreqReply : Option PubData) : Option PubData :=
  if socketExists then sreqReply
  else some { jid := some "0", minions := [] }

/-- Model of `LocalClient._check_pub_data` (client.py:144-157): a falsy
`pub_data` raises `EauthAuthenticationError`; a reply without `'jid'`
or with `jid == '0'` becomes the empty dict (`none`). -/
def check_pub_data (pub_data : Option PubData) : Except ClientErr (Option PubData) :=
  match pub_data with
  | none => .error .eauth
  | some pd =>
    match pd.jid with
    | none => .ok none
    | some j => if j = "0" then .ok none else .ok (some pd)

/-- Model of `LocalClient.run_job` (client.py:159-190): publish, then
check the pub data. -/
def run_job (socketExists : Bool) (sreqReply : Option PubData) :
    Except ClientErr (Option PubData) :=
  check_pub_data (pub socketExists sreqReply)

/-- One event pulled from the bus by `self.event.get_event`. -/
inductive Event where
  | syndic (ids : List AgentId)
  | reply (id : AgentId) (ret : Val) (out : Option Val)
deriving Repr, DecidableEq

/-- External observations of one iteration of an event-driven gather
loop: the event pull (`none` = the bus wait elapsed), the `wtag*` glob,
the clock, and the liveness-probe result consumed if `gather_job_info`
is invoked during this iteration. -/
structure IterEnv where
  event : Option Event
  wtag : Bool
  now : Nat
  jinfo : List (AgentId × Bool)
deriving Repr, DecidableEq

inductive Ctl where
  | cont
  | brk
deriving Repr, DecidableEq

structure IterState where
  minions : List AgentId
  found : List AgentId
  timeout : Nat
  start : Nat
  incTimeout : Nat
deriving Repr, DecidableEq

structure IterOut where
  yields : List RetMap
  state : IterState
  ctl : Ctl
  probed : Bool
deriving Repr, DecidableEq

/-- One iteration of the `while True` loop of
`LocalClient.get_iter_returns` (client.py:487-522): event pull with
syndic expansion, unconditional yield of any reply event (`found`
membership is never tested before yielding), convergence check,
write-tag guard, then the timeout branch with the liveness probe and
the additive timeout extension. -/
def iterStep (s : IterState) (e : IterEnv) : IterOut :=
  match e.event with
  | some (.syndic ids) =>
    { yields := [], state := { s with minions := setUnion s.minions ids },
      ctl := .cont, probed := false }
  | some (.reply id r o) =>
    let found := setAdd s.found id
    let s := { s with found := found }
    let y : RetMap := [(id, { ret := r, out := o })]
    if interCard found s.minions ≥ s.minions.length then
      { yields := [y], state := s, ctl := .brk, probed := false }
    else
      { yields := [y], state := s, ctl := .cont, probed := false }
  | none =>
    if interCard s.found s.minions ≥ s.minions.length then
      { yields := [], state := s, ctl := .brk, probed := false }
    else if e.wtag ∧ ¬ e.now > s.start + s.timeout + 1 then
      { yields := [], state := s, ctl := .cont, probed := false }
    else if e.now > s.start + s.timeout then
      if e.jinfo.any (fun p => p.2) then
        { yields := [], state := { s with timeout := s.timeout + s.incTimeout },
          ctl := .cont, probed := true }
      else
        { yields := [], state := s, ctl := .brk, probed := true }
    else
      { yields := [], state := s, ctl := .cont, probed := false }

inductive LoopExit where
  | broke
  | exhausted
  | osError
  | diverged
deriving Repr, DecidableEq

structure RunOut where
  yields : List RetMap
  state : IterState
  probes : Nat
  exit : LoopExit
deriving Repr, DecidableEq

def runIterAux (s : IterState) : List IterEnv → RunOut
  | [] => { yields := [], state := s, probes := 0, exit := .exhausted }
  | e :: es =>
    let o := iterStep s e
    match o.ctl with
    | .brk =>
      { yields := o.yields, state := o.state,
        probes := if o.probed then 1 else 0, exit := .broke }
    | .cont =>
      let r := runIterAux o.state es
      { yields := o.yields ++ r.yields, state := r.state,
        probes := (if o.probed then 1 else 0) + r.probes, exit := r.exit }

/-- Model of `LocalClient.get_iter_returns` (client.py:455-522), driven
by an iteration trace.  When the job directory is missing the generator
yields `{}` and then falls through into the loop: there is no `return`
after that yield in the source. -/
def get_iter_returns (minions : List AgentId) (timeout? : Option Nat)
    (optsTimeout : Nat) (dirExists : Bool) (start : Nat)
    (envs : List IterEnv) : RunOut :=
  let timeout := timeout?.getD optsTimeout
  let s0 : IterState :=
    { minions := toSet minions, found := [], timeout := timeout,
      start := start, incTimeout := timeout }
  let r := runIterAux s0 envs
  if dirExists then r else { r with yields := [] :: r.yields }

/-- Outcome of one `self.serial.load(..fopen(retp..))` call: `exn` when
the load raised, `val v` when it decoded to `v` (`val none` decodes to
Python `None`). -/
inductive ReadRes where
  | exn
  | val (v : Val)
deriving Repr, DecidableEq

/-- One entry of `os.listdir(jid_dir)`; `reads n` is the result of the
n-th read of that entry's `return.p` during the current pass. -/
structure DirEntry where
  name : AgentId
  hasRetp : Bool
  reads : Nat → ReadRes
  hasOutp : Bool
  outRead : ReadRes

/-- The inner `while fn_ not in ret` retry loop of
`LocalClient.get_cli_returns` (client.py:407-421), fuel-bounded.
`check` is reassigned to `True` at the top of every `try` body, so the
`check = False` written just before `continue` never survives into the
next test; the branch that would store the entry after a failed re-read
is therefore unreachable.  Returns `none` when the loop has not
terminated within `fuel` iterations; an exception from the load hits
`except: pass` and the loop retries as well. -/
def retLoop (reads : Nat → ReadRes) (i : Nat) (check : Bool) :
    Nat → Option Val
  | 0 => none
  | fuel + 1 =>
    let check := true
    match reads i with
    | .exn => retLoop reads (i + 1) check fuel
    | .val none =>
      if check then retLoop reads (i + 1) false fuel
      else some none
    | .val (some v) => some (some v)

/-- Handling of `out.p` after a successful `return.p` read in
`get_cli_returns`: `out` is set unless the `out.p` load raises, in
which case the exception is caught after `ret[fn_]` was assigned and
the entry survives without `out`. -/
def outField (hasOutp : Bool) (outRead : ReadRes) : Option Val :=
  if hasOutp then
    match outRead with
    | .exn => none
    | .val w => some w
  else none

/-- The `for fn_ in os.listdir(jid_dir)` pass of
`LocalClient.get_cli_returns` (client.py:398-424): hidden names and
names already in `found` are skipped, entries without `return.p` are
skipped, and each new entry is yielded as a singleton mapping and added
to `found`.  Returns `none` when an entry's read loop does not
terminate (the pass hangs; yields of the incomplete pass are not
surfaced). -/
def cliScan (fuel : Nat) (found : List AgentId) (fret : RetMap) :
    List DirEntry → Option (List RetMap × List AgentId × RetMap)
  | [] => some ([], found, fret)
  | d :: ds =>
    if startsWithDot d.name then cliScan fuel found fret ds
    else if d.name ∈ found then cliScan fuel found fret ds
    else if d.hasRetp = false then cliScan fuel found fret ds
    else
      match retLoop d.reads 0 true fuel with
      | none => none
      | some v =>
        let y : RetMap := [(d.name, { ret := v, out := outField d.hasOutp d.outRead })]
        match cliScan fuel (setAdd found d.name) (fret ++ y) ds with
        | none => none
        | some (ys, f, fr) => some (y :: ys, f, fr)

structure CliEnv where
  listing : List DirEntry
  wtag : Bool
  now : Nat
  jinfo : List (AgentId × Bool)

structure CliState where
  minions : List AgentId
  found : List AgentId
  fret : RetMap
  timeout : Nat
  start : Nat
  incTimeout : Nat
  verbose : Bool
  tgtType : String
deriving Repr, DecidableEq

structure CliOut where
  yields : List RetMap
  state : CliState
  ctl : Ctl
  probed : Bool
  printed : Option (List AgentId)
deriving Repr, DecidableEq

/-- The tail of one `get_cli_returns` iteration after the scan pass
(client.py:425-453): write-tag guard, convergence check, then the
timeout branch with the liveness probe, the additive extension, and
the verbose missing-minions report guarded by the condition written at
client.py:447, namely
`len(found.intersection(minions)) >= len(minions)`. -/
def cliAfterScan (s : CliState) (e : CliEnv) (ys : List RetMap) : CliOut :=
  if e.wtag ∧ ¬ e.now > s.start + s.timeout + 1 then
    { yields := ys, state := s, ctl := .cont, probed := false, printed := none }
  else if interCard s.found s.minions ≥ s.minions.length then
    { yields := ys, state := s, ctl := .brk, probed := false, printed := none }
  else if e.now > s.start + s.timeout then
    if e.jinfo.any (fun p => p.2) then
      { yields := ys, state := { s with timeout := s.timeout + s.incTimeout },
        ctl := .cont, probed := true, printed := none }
    else
      { yields := ys, state := s, ctl := .brk, probed := true,
        printed :=
          if s.verbose ∧ (s.tgtType = "glob" ∨ s.tgtType = "pcre") ∧
              interCard s.found s.minions ≥ s.minions.length then
            some (sortStr (setDiff s.minions s.found))
          else none }
  else
    { yields := ys, state := s, ctl := .cont, probed := false, printed := none }

/-- One iteration of the `while True` loop of
`LocalClient.get_cli_returns` (client.py:397-453): the scan pass
followed by `cliAfterScan` on the updated state. -/
def cliStep (fuel : Nat) (s : CliState) (e : CliEnv) : Option CliOut :=
  match cliScan fuel s.found s.fret e.listing with
  | none => none
  | some (ys, found, fret) =>
    some (cliAfterScan { s with found := found, fret := fret } e ys)

structure CliRun where
  yields : List RetMap
  probes : Nat
  exit : LoopExit
deriving Repr, DecidableEq

def runCliAux (fuel : Nat) (s : CliState) : List CliEnv → CliRun
  | [] => { yields := [], probes := 0, exit := .exhausted }
  | e :: es =>
    match cliStep fuel s e with
    | none => { yields := [], probes := 0, exit := .diverged }
    | some o =>
      match o.ctl with
      | .brk =>
        { yields := o.yields, probes := if o.probed then 1 else 0, exit := .broke }
      | .cont =>
        let r := runCliAux fuel o.state es
        { yields := o.yields ++ r.yields,
          probes := (if o.probed then 1 else 0) + r.probes, exit := r.exit }

/-- Model of `LocalClient.get_cli_returns` (client.py:364-453).  When
the job directory is missing the generator yields `{}` and then enters
the loop, whose `os.listdir(jid_dir)` raises `OSError` on the absent
directory. -/
def get_cli_returns (fuel : Nat) (minions : List AgentId)
    (timeout? : Option Nat) (optsTimeout : Nat) (dirExists : Bool)
    (start : Nat) (verbose : Bool) (tgtType : String)
    (envs : List CliEnv) : CliRun :=
  let timeout := timeout?.getD optsTimeout
  let s0 : CliState :=
    { minions := minions, found := [], fret := [], timeout := timeout,
      start := start, incTimeout := timeout, verbose := verbose,
      tgtType := tgtType }
  if dirExists then runCliAux fuel s0 envs
  else { yields := [[]], probes := 0, exit := .osError }

structure CEvState where
  minions : List AgentId
  found : List AgentId
  timeout : Nat
  start : Nat
  incTimeout : Nat
  verbose : Bool
  tgtType : String
deriving Repr, DecidableEq

structure CEvOut where
  yields : List RetMap
  state : CEvState
  ctl : Ctl
  probed : Bool
  printed : Option (List AgentId)
deriving Repr, DecidableEq

/-- One iteration of the `while True` loop of
`LocalClient.get_cli_event_returns` (client.py:730-774): event pull
with syndic expansion, unconditional yield of reply events,
convergence, write-tag guard, then the timeout branch whose verbose
missing-minions report uses the condition written at client.py:768,
namely `not len(found) >= len(minions)`. -/
def cliEventStep (s : CEvState) (e : IterEnv) : CEvOut :=
  match e.event with
  | some (.syndic ids) =>
    { yields := [], state := { s with minions := setUnion s.minions ids },
      ctl := .cont, probed := false, printed := none }
  | some (.reply id r o) =>
    let found := setAdd s.found id
    let s := { s with found := found }
    let y : RetMap := [(id, { ret := r, out := o })]
    if interCard found s.minions ≥ s.minions.length then
      { yields := [y], state := s, ctl := .brk, probed := false, printed := none }
    else
      { yields := [y], state := s, ctl := .cont, probed := false, printed := none }
  | none =>
    if interCard s.found s.minions ≥ s.minions.length then
      { yields := [], state := s, ctl := .brk, probed := false, printed := none }
    else if e.wtag ∧ ¬ e.now > s.start + s.timeout + 1 then
      { yields := [], state := s, ctl := .cont, probed := false, printed := none }
    else if e.now > s.start + s.timeout then
      if e.jinfo.any (fun p => p.2) then
        { yields := [], state := { s with timeout := s.timeout + s.incTimeout },
          ctl := .cont, probed := true, printed := none }
      else
        { yields := [], state := s, ctl := .brk, probed := true,
          printed :=
            if s.verbose ∧ (s.tgtType = "glob" ∨ s.tgtType = "pcre") ∧
                ¬ s.found.length ≥ s.minions.length then
              some (sortStr (setDiff s.minions s.found))
            else none }
    else
      { yields := [], state := s, ctl := .cont, probed := false, printed := none }

/-- The inner `while fn_ not in ret` retry loop of
`LocalClient.get_returns` (client.py:555-559): `ret[fn_] = load(..)`
under `try .. except: pass`, so a decoded `None` IS stored (the key
then exists and the loop exits); only an exception retries. -/
def getRetLoop (reads : Nat → ReadRes) (i : Nat) : Nat → Option Val
  | 0 => none
  | fuel + 1 =>
    match reads i with
    | .exn => getRetLoop reads (i + 1) fuel
    | .val v => some v

/-- The `for fn_ in os.listdir(jid_dir)` pass of
`LocalClient.get_returns` (client.py:548-559). -/
def getScan (fuel : Nat) (ret : List (AgentId × Val)) :
    List DirEntry → Option (List (AgentId × Val))
  | [] => some ret
  | d :: ds =>
    if startsWithDot d.name then getScan fuel ret ds
    else if d.name ∈ ret.map Prod.fst then getScan fuel ret ds
    else if d.hasRetp = false then getScan fuel ret ds
    else
      match getRetLoop d.reads 0 fuel with
      | none => none
      | some v => getScan fuel (ret ++ [(d.name, v)]) ds

structure GetEnv where
  listing : List DirEntry
  wtag : Bool
  now : Nat

inductive GetRes where
  | ok (ret : List (AgentId × Val))
  | diverged
deriving Repr, DecidableEq

def runGetAux (fuel : Nat) (minions : List AgentId) (timeout : Nat)
    (gstart : Nat) (retAcc : List (AgentId × Val)) (start : Nat) :
    List GetEnv → GetRes
  | [] => .ok retAcc
  | e :: es =>
    match getScan fuel retAcc e.listing with
    | none => .diverged
    | some ret =>
      let start := if ret ≠ [] ∧ start = 999999999999 then e.now else start
      if e.wtag ∧ ¬ e.now > start + timeout + 1 then
        runGetAux fuel minions timeout gstart ret start es
      else if interCard (ret.map Prod.fst) minions ≥ minions.length then
        .ok ret
      else if e.now > start + timeout then
        .ok ret
      else if e.now > gstart + timeout ∧ ret = [] then
        .ok ret
      else runGetAux fuel minions timeout gstart ret start es

/-- Model of `LocalClient.get_returns` (client.py:524-576).  `start`
begins at the literal sentinel 999999999999 and is set to the clock
only when the first return is observed, so the per-reply timeout counts
from the first reply; `gstart` drives the global no-reply timeout.
A jid decoding to the integer 0 and a missing job directory both return
the empty dict before the loop is entered. -/
def get_returns (fuel : Nat) (jid : String) (minions : List AgentId)
    (timeout? : Option Nat) (optsTimeout : Nat) (dirExists : Bool)
    (gstart : Nat) (envs : List GetEnv) : GetRes :=
  let timeout := timeout?.getD optsTimeout
  if jidIsZero jid then .ok []
  else if dirExists = false then .ok []
  else runGetAux fuel minions timeout gstart [] 999999999999 envs

/-- Model of `LocalClient.cmd` (client.py:192-219): run the job; a
falsy checked pub result is returned as-is (the empty dict); otherwise
gather with `get_returns` under `timeout or self.opts['timeout']`. -/
def cmd (socketExists : Bool) (sreqReply : Option PubData)
    (timeout? : Option Nat) (optsTimeout : Nat) (fuel : Nat)
    (dirExists : Bool) (gstart : Nat) (envs : List GetEnv) :
    Except ClientErr GetRes :=
  match run_job socketExists sreqReply with
  | .error err => .error err
  | .ok none => .ok (.ok [])
  | .ok (some pd) =>
    .ok (get_returns fuel (pd.jid.getD "") pd.minions
      (some (pyOr timeout? optsTimeout)) optsTimeout dirExists gstart envs)

/-- Model of `LocalClient.cmd_iter` (client.py:262-297): a falsy
checked pub result is yielded once; otherwise the `get_iter_returns`
yields are surfaced with empty mappings filtered out
(`if not fn_ret: continue`). -/
def cmd_iter (socketExists : Bool) (sreqReply : Option PubData)
    (timeout? : Option Nat) (optsTimeout : Nat) (dirExists : Bool)
    (start : Nat) (envs : List IterEnv) : Except ClientErr (List RetMap) :=
  match run_job socketExists sreqReply with
  | .error err => .error err
  | .ok none => .ok [[]]
  | .ok (some pd) =>
    let r := get_iter_returns pd.minions (some (pyOr timeout? optsTimeout))
      optsTimeout dirExists start envs
    .ok (r.yields.filter (fun y => decide (y ≠ [])))

/-- Model of `LocalClient.cmd_iter_no_block` (client.py:299-328): the
same `get_iter_returns` engine as `cmd_iter`, called with the raw
`timeout` argument, the default target, and no filtering of empty
mappings.  The gatherer's run record is returned alongside the yields
so that its probe count and final timeout are observable. -/
def cmd_iter_no_block (socketExists : Bool) (sreqReply : Option PubData)
    (timeout? : Option Nat) (optsTimeout : Nat) (dirExists : Bool)
    (start : Nat) (envs : List IterEnv) :
    Except ClientErr (List RetMap × Option RunOut) :=
  match run_job socketExists sreqReply with
  | .error err => .error err
  | .ok none => .ok ([[]], none)
  | .ok (some pd) =>
    let r := get_iter_returns pd.minions timeout? optsTimeout dirExists start envs
    .ok (r.yields, some r)

/-- What a call to `FunctionWrapper.run_key` can evaluate to. -/
inductive RunKeyResult where
  | closure (key : String)
  | pyNone
deriving Repr, DecidableEq

/-- Model of `FunctionWrapper.run_key` (client.py:941-953): the body
defines the closure `func` but contains no `return` statement, so the
call falls off the end and evaluates to Python `None`, never to the
closure. -/
def run_key (key : String) : RunKeyResult := .pyNone

inductive PyErr where
  | keyError
  | valueError
deriving Repr, DecidableEq

structure FunctionWrapper where
  functions : List String
  minion : AgentId
deriving Repr, DecidableEq

/-- Model of `FunctionWrapper.__missing__` (client.py:921-928): a key
absent from the resolved function set raises `KeyError`; otherwise the
result of `run_key` is returned. -/
def FunctionWrapper.missing (w : FunctionWrapper) (key : String) :
    Except PyErr RunKeyResult :=
  if ¬ key ∈ w.functions then .error .keyError
  else .ok (run_key key)

/-- Python unpacking `_key, _val = s` of a string: succeeds exactly
when the string has two characters, yielding them; otherwise it raises
`ValueError`. -/
def unpack2 (s : String) : Except PyErr (Char × Char) :=
  match s.toList with
  | [a, b] => .ok (a, b)
  | _ => .error .valueError

/-- The argument-packing of the closure body written inside `run_key`
(client.py:950-952): `for _key, _val in kwargs` iterates the dict's
KEYS, so each key string is unpacked into the two loop variables and
`'{0}={1}'.format(_key, _val)` joins the two characters. -/
def func_kwarg_args (args : List String) (kwargKeys : List String) :
    Except PyErr (List String) :=
  match kwargKeys with
  | [] => .ok args
  | k :: ks =>
    match unpack2 k with
    | .error e => .error e
    | .ok (a, b) => func_kwarg_args (args ++ [String.mk [a, '=', b]]) ks

/-- Parsed client options, opaque to the model. -/
abbrev Opts := List (String × Nat)

inductive PyExc where
  | attributeError
deriving Repr, DecidableEq

/-- Python truthiness of the `mopts` argument: `None` and the empty
dict are falsy. -/
def pyTruthyDict (m : Option Opts) : Bool :=
  match m with
  | none => false
  | some l => !l.isEmpty

/-- Model of `LocalClient.__init__` (client.py:72-80): when `mopts` is
truthy the constructor evaluates `self.opts - mopts`, which reads
`self.opts` before any assignment to it and raises `AttributeError`;
otherwise the options are parsed from the configuration path
(`copts`). -/
def LocalClient_init (copts : Opts) (mopts : Option Opts) : Except PyExc Opts :=
  if pyTruthyDict mopts then .error .attributeError
  else .ok copts

/-- C6: in `get_cli_returns`, a `return.p` that decodes to `None` on
every read makes the inner retry loop run forever — for every fuel
bound the loop has not finished — because `check` is reset to `True` at
the top of each `try`; the entry is never skipped and the scan pass
never terminates, contradicting the re-attempt-once-then-skip rule. -/
theorem null_return_read_loops_forever :
    ∀ (fuel i : Nat) (c : Bool),
      retLoop (fun _ => ReadRes.val none) i c fuel = none := by
  intro fuel
  induction fuel with
  | zero => intro i c; rfl
  | succ n ih =>
    intro i c
    simpa [retLoop] using ih (i + 1) false

/-- C1 counterexample: a run of `get_iter_returns` over an event trace
that delivers a reply for agent `a` twice surfaces agent `a` twice —
membership in `found` is never checked before yielding. -/
theorem get_iter_returns_duplicate_reply_counterexample :
    (get_iter_returns ["a", "b"] (some 5) 5 true 0
      [{ event := some (.reply "a" (some 1) none), wtag := false, now := 0, jinfo := [] },
       { event := some (.reply "a" (some 1) none), wtag := false, now := 0, jinfo := [] }]).yields
    = [[("a", { ret := some 1, out := none })],
       [("a", { ret := some 1, out := none })]] := by
  rfl

/-- C2 counterexample: a concrete run of `cmd_iter_no_block` (publish
succeeded, one minion, base timeout 1, clock already past the
deadline, probe reporting the minion still running) invokes
`gather_job_info` once (`probes = 1`) and extends the timeout from the
base 1 to 2 — refuting fixed-timeout, no-probe, no-extension. -/
theorem cmd_iter_no_block_probes_counterexample :
    cmd_iter_no_block true (some { jid := some "17", minions := ["a"] })
      (some 1) 5 true 0
      [{ event := none, wtag := false, now := 2, jinfo := [("a", true)] },
       { event := none, wtag := false, now := 2, jinfo := [] }]
    = .ok ([], some ⟨[], ⟨["a"], [], 2, 0, 1⟩, 1, .exhausted⟩) := by
  rfl

/-- C4: with the job directory absent at entry, `get_returns` returns
the empty dict without raising, but `get_cli_returns` yields `{}` and
then raises `OSError` from `os.listdir` on the missing directory, and
`get_iter_returns` yields `{}` and keeps looping — here surfacing a
further reply — instead of terminating after the single empty yield. -/
theorem missing_jid_dir_surfacing :
    (get_returns 1 "20120101" ["a"] (some 5) 5 false 0 [] = GetRes.ok []) ∧
    (get_cli_returns 1 ["a"] (some 5) 5 false 0 false "glob" []
      = { yields := [[]], probes := 0, exit := .osError }) ∧
    ((get_iter_returns ["a", "b"] (some 5) 5 false 0
        [{ event := some (.reply "a" (some 1) none), wtag := false, now := 0,
           jinfo := [] }]).yields
      = [[], [("a", { ret := some 1, out := none })]]) := by
  refine ⟨rfl, rfl, rfl⟩

/-- C9: looking up a name absent from the resolved function set fails
with `KeyError`, but looking up a present name returns Python `None`,
not a callable, because `run_key` never returns the closure it
defines; and the closure body itself mis-serializes named arguments —
iterating the dict yields its keys, so a three-character key raises
`ValueError` and a two-character key `ab` is packed as `a=b`, never as
a `k=v` token. -/
theorem function_wrapper_run_key_returns_none :
    (FunctionWrapper.missing { functions := ["test.ping"], minion := "m1" }
        "sys.doc" = .error .keyError) ∧
    (FunctionWrapper.missing { functions := ["test.ping"], minion := "m1" }
        "test.ping" = .ok RunKeyResult.pyNone) ∧
    (∀ k, FunctionWrapper.missing { functions := ["test.ping"], minion := "m1" } k
        ≠ .ok (RunKeyResult.closure k)) ∧
    (func_kwarg_args ["arg1"] ["foo"] = .error .valueError) ∧
    (func_kwarg_args [] ["ab"] = .ok ["a=b"]) := by
  refine ⟨rfl, rfl, ?_, rfl, rfl⟩
  intro k
  unfold FunctionWrapper.missing
  split
  · simp
  · simp [run_key]

/-- C10 counterexample: `mopts = {}` is not `None` yet falsy, so the
constructor takes the configuration-file branch and produces a usable
client — refuting "for every non-None mopts the constructor never
produces a usable client". -/
theorem localclient_init_empty_mopts_counterexample :
    LocalClient_init [("timeout", 5)] (some []) = .ok [("timeout", 5)] := by
  rfl

/-- C10 (amended): for every truthy (non-empty) `mopts`, the
constructor evaluates `self.opts - mopts` and raises `AttributeError`
before `self.opts` is ever bound, so the documented path for supplying
pre-parsed options is unreachable; a falsy non-None `mopts` is silently
ignored. -/
theorem localclient_init_truthy_mopts_raises :
    ∀ (m copts : Opts), m ≠ [] →
      LocalClient_init copts (some m) = .error .attributeError := by
  intro m copts hm
  unfold LocalClient_init pyTruthyDict
  simp [List.isEmpty_iff, hm]

/-- C10 witness: the amended theorem applied at a concrete non-empty
`mopts`. -/
theorem localclient_init_truthy_mopts_raises_witness :
    LocalClient_init [("timeout", 5)] (some [("user", 0)])
      = .error .attributeError :=
  localclient_init_truthy_mopts_raises [("user", 0)] [("timeout", 5)] (by simp)

theorem cliStep_some (fuel : Nat) (s : CliState) (e : CliEnv) (o : CliOut)
    (h : cliStep fuel s e = some o) :
    ∃ ys found fret, cliScan fuel s.found s.fret e.listing = some (ys, found, fret) ∧
      o = cliAfterScan { s with found := found, fret := fret } e ys := by
  unfold cliStep at h
  cases hscan : cliScan fuel s.found s.fret e.listing with
  | none => rw [hscan] at h; cases h
  | some t =>
    obtain ⟨ys, f, fr⟩ := t
    rw [hscan] at h
    refine ⟨ys, f, fr, rfl, ?_⟩
    injection h with h
    exact h.symm

theorem cliAfterScan_components (s : CliState) (e : CliEnv) (ys : List RetMap) :
    (cliAfterScan s e ys).yields = ys ∧
    (cliAfterScan s e ys).state.found = s.found ∧
    (cliAfterScan s e ys).printed = none := by
  unfold cliAfterScan
  split
  · exact ⟨rfl, rfl, rfl⟩
  split
  · exact ⟨rfl, rfl, rfl⟩
  split
  · split
    · exact ⟨rfl, rfl, rfl⟩
    · refine ⟨rfl, rfl, ?_⟩
      simp_all
  · exact ⟨rfl, rfl, rfl⟩

theorem cliAfterScan_wtag (s : CliState) (e : CliEnv) (ys : List RetMap)
    (hw : e.wtag = true) (hn : e.now ≤ s.start + s.timeout + 1) :
    cliAfterScan s e ys =
      { yields := ys, state := s, ctl := .cont, probed := false,
        printed := none } := by
  unfold cliAfterScan
  rw [if_pos ⟨hw, by omega⟩]

/-- C5: while any `wtag*` path exists and the clock has not passed
start + timeout + 1, no gather loop declares Expired at the timeout:
the event-driven step neither invokes the liveness prober nor changes
the timeout, and the directory-scanning step additionally always
continues (its write-tag guard precedes even the convergence check). -/
theorem wtag_guard_suppresses_timeout :
    (∀ (s : IterState) (e : IterEnv), e.wtag = true →
        e.now ≤ s.start + s.timeout + 1 →
        (iterStep s e).probed = false ∧
          (iterStep s e).state.timeout = s.timeout) ∧
    (∀ (fuel : Nat) (s : CliState) (e : CliEnv) (o : CliOut), e.wtag = true →
        e.now ≤ s.start + s.timeout + 1 → cliStep fuel s e = some o →
        o.probed = false ∧ o.ctl = Ctl.cont ∧
          o.state.timeout = s.timeout) := by
  constructor
  · intro s e hw hn
    obtain ⟨ev, w, n, j⟩ := e
    simp only at hw hn
    subst hw
    cases ev with
    | none =>
      have hng : ¬ n > s.start + s.timeout + 1 := by omega
      by_cases hc : interCard s.found s.minions ≥ s.minions.length
      · simp [iterStep, hc]
      · simp [iterStep, hc, hng]
    | some v =>
      cases v with
      | syndic ids => exact ⟨rfl, rfl⟩
      | reply id r o =>
        simp only [iterStep]
        split
        · exact ⟨rfl, rfl⟩
        · exact ⟨rfl, rfl⟩
  · intro fuel s e o hw hn hstep
    obtain ⟨ys, f, fr, hscan, ho⟩ := cliStep_some fuel s e o hstep
    subst ho
    rw [cliAfterScan_wtag { s with found := f, fret := fr } e ys hw hn]
    exact ⟨rfl, rfl, rfl⟩

/-- C5 witness: the theorem applied at a concrete state and
environment with the write tag present inside the grace window. -/
theorem wtag_guard_suppresses_timeout_witness :
    ((iterStep ⟨["a"], [], 1, 0, 1⟩ ⟨none, true, 2, [("a", true)]⟩).probed = false ∧
      (iterStep ⟨["a"], [], 1, 0, 1⟩ ⟨none, true, 2, [("a", true)]⟩).state.timeout = 1) ∧
    ((0 : Nat) = 0 ∨
      ∃ o, cliStep 1 ⟨["a"], [], [], 1, 0, 1, false, "glob"⟩ ⟨[], true, 2, []⟩ = some o ∧
        o.probed = false) := by
  constructor
  · exact wtag_guard_suppresses_timeout.1 ⟨["a"], [], 1, 0, 1⟩
      ⟨none, true, 2, [("a", true)]⟩ rfl (by decide)
  · right
    refine ⟨⟨[], ⟨["a"], [], [], 1, 0, 1, false, "glob"⟩, .cont, false, none⟩, rfl, ?_⟩
    exact (wtag_guard_suppresses_timeout.2 1 ⟨["a"], [], [], 1, 0, 1, false, "glob"⟩
      ⟨[], true, 2, []⟩ _ rfl (by decide) rfl).1

/-- C7: when the publisher's local socket is missing, `pub` returns
`{jid: "0", minions: []}` without raising; a checked pub result whose
jid is `"0"` or absent becomes the empty dict; `cmd` then returns the
empty mapping immediately and `cmd_iter` yields one empty mapping and
stops. -/
theorem publish_socket_missing_short_circuit :
    (∀ r, pub false r = some { jid := some "0", minions := [] }) ∧
    (∀ pd : PubData, pd.jid = some "0" ∨ pd.jid = none →
        check_pub_data (some pd) = .ok none) ∧
    (∀ r t ot fuel de gs envs,
        cmd false r t ot fuel de gs envs = .ok (GetRes.ok [])) ∧
    (∀ r t ot de st envs, cmd_iter false r t ot de st envs = .ok [[]]) := by
  refine ⟨fun r => rfl, ?_, fun r t ot fuel de gs envs => rfl,
    fun r t ot de st envs => rfl⟩
  rintro pd (h | h) <;> simp [check_pub_data, h]

/-- C7 witness: the theorem applied at a concrete checked pub result
whose jid is the sentinel "0". -/
theorem publish_socket_missing_short_circuit_witness :
    check_pub_data (some { jid := some "0", minions := ["x"] }) = .ok none :=
  publish_socket_missing_short_circuit.2.1
    { jid := some "0", minions := ["x"] } (Or.inl rfl)

/-- C3 counterexample: when the synchronous request returns an empty
reply (`sreqReply = none` with the socket present), `cmd` and
`cmd_iter` raise `EauthAuthenticationError` instead of returning or
yielding an empty mapping. -/
theorem cmd_empty_reply_raises_counterexample :
    cmd true none (some 5) 5 1 true 0 [] = .error ClientErr.eauth ∧
    cmd_iter true none (some 5) 5 true 0 [] = .error ClientErr.eauth := by
  exact ⟨rfl, rfl⟩

/-- C3 (amended): an empty reply from the synchronous request makes
`_check_pub_data` raise `EauthAuthenticationError` (an AuthError kind)
rather than propagating emptiness; only a checked pub result that is
falsy — jid `"0"` or missing — propagates as empty, with `cmd`
returning and `cmd_iter` yielding one empty mapping before
terminating. -/
theorem publish_empty_reply_policy :
    (check_pub_data none = .error ClientErr.eauth) ∧
    (∀ se r t ot fuel de gs envs, run_job se r = .ok none →
        cmd se r t ot fuel de gs envs = .ok (GetRes.ok [])) ∧
    (∀ se r t ot de st envs, run_job se r = .ok none →
        cmd_iter se r t ot de st envs = .ok [[]]) := by
  refine ⟨rfl, ?_, ?_⟩
  · intro se r t ot fuel de gs envs h
    simp [cmd, h]
  · intro se r t ot de st envs h
    simp [cmd_iter, h]

/-- C3 witness: the amended theorem applied at a concrete publish
whose checked result is falsy (jid sentinel "0"). -/
theorem publish_empty_reply_policy_witness :
    cmd true (some { jid := some "0", minions := [] }) (some 5) 5 1 true 0 []
      = .ok (GetRes.ok []) ∧
    cmd_iter true (some { jid := some "0", minions := [] }) (some 5) 5 true 0 []
      = .ok [[]] :=
  ⟨publish_empty_reply_policy.2.1 true (some { jid := some "0", minions := [] })
      (some 5) 5 1 true 0 [] rfl,
    publish_empty_reply_policy.2.2 true (some { jid := some "0", minions := [] })
      (some 5) 5 true 0 [] rfl⟩

/-- C8: the verbose missing-minions report.  In `get_cli_returns` the
report is guarded by `len(found.intersection(minions)) >= len(minions)`
(client.py:447), which can only be reached after the convergence check
just failed on the very same expression — so NO iteration of that
gatherer ever prints the report; in `get_cli_event_returns`
(client.py:768) the guard is `not len(found) >= len(minions)` and the
sorted still-missing ids are reported on Expired as the claim states. -/
theorem cli_missing_report_predicate :
    (∀ (fuel : Nat) (s : CliState) (e : CliEnv) (o : CliOut),
        cliStep fuel s e = some o → o.printed = none) ∧
    (∀ (s : CEvState) (e : IterEnv),
        e.event = none → s.verbose = true →
        (s.tgtType = "glob" ∨ s.tgtType = "pcre") →
        interCard s.found s.minions < s.minions.length →
        (e.wtag = false ∨ e.now > s.start + s.timeout + 1) →
        e.now > s.start + s.timeout →
        e.jinfo.any (fun p => p.2) = false →
        s.found.length < s.minions.length →
        (cliEventStep s e).printed = some (sortStr (setDiff s.minions s.found)) ∧
          (cliEventStep s e).ctl = Ctl.brk) := by
  constructor
  · intro fuel s e o hstep
    obtain ⟨ys, f, fr, hscan, ho⟩ := cliStep_some fuel s e o hstep
    subst ho
    exact (cliAfterScan_components _ e ys).2.2
  · intro s e hev hv hk hic hwt ht hj hfl
    obtain ⟨ev, w, n, j⟩ := e
    simp only at hev ht hj hwt
    subst hev
    have h1 : ¬ interCard s.found s.minions ≥ s.minions.length := by omega
    have h2 : ¬ (w = true ∧ ¬ n > s.start + s.timeout + 1) := by
      rcases hwt with h | h
      · rintro ⟨hw, _⟩; rw [h] at hw; cases hw
      · rintro ⟨_, hn⟩; exact hn h
    have h3 : ¬ s.found.length ≥ s.minions.length := by omega
    have h4 : ¬ (j.any (fun p => p.2)) = true := by simp [hj]
    simp only [cliEventStep]
    rw [if_neg h1, if_neg h2, if_pos ht, if_neg h4, if_pos ⟨hv, hk, h3⟩]
    exact ⟨rfl, rfl⟩

/-- C8 witness: the theorem applied to a concrete expired
`get_cli_returns` iteration (which reports nothing) and a concrete
expired `get_cli_event_returns` iteration with agent `b` still missing
(which reports `b`). -/
theorem cli_missing_report_predicate_witness :
    (CliOut.mk [] ⟨["a"], [], [], 1, 0, 1, true, "glob"⟩ .brk true none).printed
        = none ∧
    ((cliEventStep ⟨["a", "b"], ["a"], 1, 0, 1, true, "glob"⟩
          ⟨none, false, 2, []⟩).printed
        = some (sortStr (setDiff ["a", "b"] ["a"])) ∧
      (cliEventStep ⟨["a", "b"], ["a"], 1, 0, 1, true, "glob"⟩
          ⟨none, false, 2, []⟩).ctl = Ctl.brk) := by
  constructor
  · exact cli_missing_report_predicate.1 1 ⟨["a"], [], [], 1, 0, 1, true, "glob"⟩
      ⟨[], false, 2, []⟩ _ rfl
  · exact cli_missing_report_predicate.2 ⟨["a", "b"], ["a"], 1, 0, 1, true, "glob"⟩
      ⟨none, false, 2, []⟩ rfl rfl (Or.inl rfl) (by decide) (Or.inl rfl)
      (by decide) rfl (by decide)

theorem iterStep_inc_preserved (s : IterState) (e : IterEnv) :
    (iterStep s e).state.incTimeout = s.incTimeout ∧
    ((iterStep s e).state.timeout = s.timeout ∨
      ((iterStep s e).state.timeout = s.timeout + s.incTimeout ∧
        (iterStep s e).probed = true)) := by
  obtain ⟨ev, w, n, j⟩ := e
  cases ev with
  | none =>
    simp only [iterStep]
    split
    · exact ⟨rfl, Or.inl rfl⟩
    · split
      · exact ⟨rfl, Or.inl rfl⟩
      · split
        · split
          · exact ⟨rfl, Or.inr ⟨rfl, rfl⟩⟩
          · exact ⟨rfl, Or.inl rfl⟩
        · exact ⟨rfl, Or.inl rfl⟩
  | some v =>
    cases v with
    | syndic ids => exact ⟨rfl, Or.inl rfl⟩
    | reply id r o =>
      simp only [iterStep]
      split
      · exact ⟨rfl, Or.inl rfl⟩
      · exact ⟨rfl, Or.inl rfl⟩

theorem runIterAux_timeout_linear :
    ∀ (envs : List IterEnv) (s : IterState),
      ∃ m, (runIterAux s envs).state.timeout = s.timeout + m * s.incTimeout ∧
        (0 < m → 0 < (runIterAux s envs).probes) := by
  intro envs
  induction envs with
  | nil =>
    intro s
    exact ⟨0, by simp [runIterAux], by omega⟩
  | cons e es ih =>
    intro s
    obtain ⟨hinc, hto⟩ := iterStep_inc_preserved s e
    cases hc : (iterStep s e).ctl with
    | brk =>
      rcases hto with h | ⟨h, hp⟩
      · exact ⟨0, by simp [runIterAux, hc, h], by omega⟩
      · refine ⟨1, by simp [runIterAux, hc]; omega, ?_⟩
        intro _
        simp [runIterAux, hc, hp]
    | cont =>
      obtain ⟨m, hm, hpm⟩ := ih (iterStep s e).state
      rcases hto with h | ⟨h, hp⟩
      · refine ⟨m, ?_, ?_⟩
        · simp only [runIterAux, hc]
          rw [hm, h, hinc]
        · intro h0
          simp only [runIterAux, hc]
          have := hpm h0
          omega
      · refine ⟨m + 1, ?_, ?_⟩
        · simp only [runIterAux, hc]
          rw [hm, h, hinc]
          ring
        · intro _
          simp only [runIterAux, hc]
          simp [hp]

/-- C2 (amended): `cmd_iter_no_block` does not run with a fixed
timeout: it delegates to the shared `get_iter_returns` engine, whose
timeout branch invokes `gather_job_info` and extends the timeout by the
base quantum whenever some agent reports still-running — so the final
timeout is always base + m·base, and any strictly positive number of
extensions implies the liveness prober was invoked. -/
theorem cmd_iter_no_block_adaptive_timeout :
    ∀ (se : Bool) (r : Option PubData) (t : Option Nat) (ot : Nat)
      (de : Bool) (st : Nat) (envs : List IterEnv)
      (ys : List RetMap) (run : RunOut),
      cmd_iter_no_block se r t ot de st envs = .ok (ys, some run) →
      ∃ m, run.state.timeout = t.getD ot + m * t.getD ot ∧
        (0 < m → 0 < run.probes) := by
  intro se r t ot de st envs ys run h
  unfold cmd_iter_no_block at h
  cases hrj : run_job se r with
  | error e0 => rw [hrj] at h; cases h
  | ok opd =>
    rw [hrj] at h
    cases opd with
    | none => simp at h
    | some pd =>
      simp only [Except.ok.injEq, Prod.mk.injEq, Option.some.injEq] at h
      obtain ⟨-, hrun⟩ := h
      subst hrun
      unfold get_iter_returns
      obtain ⟨m, hm, hpm⟩ := runIterAux_timeout_linear envs
        ⟨toSet pd.minions, [], t.getD ot, st, t.getD ot⟩
      cases de with
      | true => exact ⟨m, hm, hpm⟩
      | false => exact ⟨m, hm, hpm⟩

/-- C2 witness: the amended theorem applied at the concrete run of the
counterexample (one probe, one extension: final timeout 2 = 1 + 1·1). -/
theorem cmd_iter_no_block_adaptive_timeout_witness :
    ∃ m, (RunOut.mk [] ⟨["a"], [], 2, 0, 1⟩ 1 .exhausted).state.timeout
        = (some 1 : Option Nat).getD 5 + m * (some 1 : Option Nat).getD 5 ∧
      (0 < m → 0 < (RunOut.mk [] ⟨["a"], [], 2, 0, 1⟩ 1 .exhausted).probes) :=
  cmd_iter_no_block_adaptive_timeout true (some ⟨some "17", ["a"]⟩) (some 1) 5
    true 0 [⟨none, false, 2, [("a", true)]⟩, ⟨none, false, 2, []⟩] [] _ rfl

theorem setAdd_not_mem {s : List AgentId} {x : AgentId} (h : x ∉ s) :
    setAdd s x = s ++ [x] := by
  simp [setAdd, h]

theorem yieldIds_append (a b : List RetMap) :
    yieldIds (a ++ b) = yieldIds a ++ yieldIds b := by
  induction a with
  | nil => rfl
  | cons y ys ih => simp [yieldIds, ih]

theorem cliScan_found_spec (fuel : Nat) :
    ∀ (ds : List DirEntry) (found : List AgentId) (fret : RetMap)
      (ys : List RetMap) (f : List AgentId) (fr : RetMap),
      cliScan fuel found fret ds = some (ys, f, fr) →
      f = found ++ yieldIds ys ∧ (∀ x ∈ yieldIds ys, x ∉ found) ∧
        (yieldIds ys).Nodup := by
  intro ds
  induction ds with
  | nil =>
    intro found fret ys f fr h
    simp only [cliScan, Option.some.injEq, Prod.mk.injEq] at h
    obtain ⟨h1, h2, h3⟩ := h
    subst h1; subst h2
    simp [yieldIds]
  | cons d ds ih =>
    intro found fret ys f fr h
    unfold cliScan at h
    split at h
    · exact ih found fret ys f fr h
    · split at h
      · exact ih found fret ys f fr h
      · split at h
        · exact ih found fret ys f fr h
        · cases hr : retLoop d.reads 0 true fuel with
          | none => rw [hr] at h; cases h
          | some v =>
            rw [hr] at h
            simp only at h
            cases hs : cliScan fuel (setAdd found d.name)
                (fret ++ [(d.name, { ret := v, out := outField d.hasOutp d.outRead })]) ds with
            | none => rw [hs] at h; cases h
            | some t =>
              obtain ⟨ys1, f1, fr1⟩ := t
              rw [hs] at h
              simp only [Option.some.injEq, Prod.mk.injEq] at h
              obtain ⟨h1, h2, h3⟩ := h
              subst h1; subst h2; subst h3
              have hmem : d.name ∉ found := by assumption
              rw [setAdd_not_mem hmem] at hs
              obtain ⟨g1, g2, g3⟩ := ih (found ++ [d.name]) _ ys1 f1 fr1 hs
              have hid : yieldIds ([(d.name, { ret := v, out := outField d.hasOutp d.outRead })] :: ys1)
                  = d.name :: yieldIds ys1 := by
                simp [yieldIds]
              refine ⟨?_, ?_, ?_⟩
              · rw [hid, g1]
                simp
              · rw [hid]
                intro x hx
                rcases List.mem_cons.mp hx with h | h
                · subst h; exact hmem
                · have := g2 x h
                  intro hxf
                  exact this (List.mem_append_left _ hxf)
              · rw [hid]
                refine List.nodup_cons.mpr ⟨?_, g3⟩
                intro hd
                have := g2 _ hd
                exact this (List.mem_append_right _ (List.mem_singleton.mpr rfl))

theorem cliStep_found_spec (fuel : Nat) (s : CliState) (e : CliEnv)
    (o : CliOut) (h : cliStep fuel s e = some o) :
    o.state.found = s.found ++ yieldIds o.yields ∧
    (∀ x ∈ yieldIds o.yields, x ∉ s.found) ∧ (yieldIds o.yields).Nodup := by
  obtain ⟨ys, f, fr, hscan, ho⟩ := cliStep_some fuel s e o h
  obtain ⟨g1, g2, g3⟩ :=
    cliScan_found_spec fuel e.listing s.found s.fret ys f fr hscan
  obtain ⟨c1, c2, c3⟩ :=
    cliAfterScan_components { s with found := f, fret := fr } e ys
  subst ho
  rw [c1, c2]
  exact ⟨g1, g2, g3⟩

theorem runCliAux_ids_spec (fuel : Nat) :
    ∀ (envs : List CliEnv) (s : CliState),
      (yieldIds (runCliAux fuel s envs).yields).Nodup ∧
      (∀ x ∈ yieldIds (runCliAux fuel s envs).yields, x ∉ s.found) := by
  intro envs
  induction envs with
  | nil =>
    intro s
    simp [runCliAux, yieldIds]
  | cons e es ih =>
    intro s
    cases hstep : cliStep fuel s e with
    | none =>
      simp [runCliAux, hstep, yieldIds]
    | some o =>
      obtain ⟨g1, g2, g3⟩ := cliStep_found_spec fuel s e o hstep
      cases hc : o.ctl with
      | brk =>
        simp only [runCliAux, hstep, hc]
        exact ⟨g3, g2⟩
      | cont =>
        obtain ⟨r1, r2⟩ := ih o.state
        simp only [runCliAux, hstep, hc]
        rw [yieldIds_append]
        constructor
        · refine List.Nodup.append g3 r1 ?_
          intro x hx hx2
          have := r2 x hx2
          rw [g1] at this
          exact this (List.mem_append_right _ hx)
        · intro x hx
          rcases List.mem_append.mp hx with h | h
          · exact g2 x h
          · have := r2 x h
            rw [g1] at this
            intro hxf
            exact this (List.mem_append_left _ hxf)

/-- C1 (amended): the directory-scanning gatherer `get_cli_returns`
surfaces each AgentId at most once per run — once an id enters `found`
the scan skips it forever; the event-driven gatherers
(`get_iter_returns`, `get_cli_event_returns`), by contrast, add a
reply's id to `found` but never test membership before yielding, so a
duplicate reply event for an id already in `found` is yielded again
(see the counterexample). -/
theorem get_cli_returns_yield_ids_nodup :
    ∀ (fuel : Nat) (minions : List AgentId) (t : Option Nat) (ot : Nat)
      (de : Bool) (st : Nat) (v : Bool) (tk : String) (envs : List CliEnv),
      (yieldIds (get_cli_returns fuel minions t ot de st v tk envs).yields).Nodup := by
  intro fuel minions t ot de st v tk envs
  unfold get_cli_returns
  cases de with
  | false => simp [yieldIds]
  | true =>
    simp only
    exact (runCliAux_ids_spec fuel envs _).1

end SaltClient
